import Mathlib

/-!
Verification development for the product-research backend
(`backend/app/services/analysis.py`, `scheduler.py`, `competitor_analysis.py`
and `backend/app/utils/gemini.py`).  Each Python function relevant to the
checked properties is shallowly embedded as an executable Lean definition;
external effects (the Gemini call, MongoDB reads and writes, logging) are
passed in as explicit values or are reflected in explicit state records.
-/

namespace ProductLaunch

/-! ## Generation client (`app/utils/gemini.py`) -/

/-- The shape of the dictionaries returned by `get_gemini_response` and
`use_stored_prompt`: either a success dict carrying the generated text in
its `response` field, or a failure dict carrying an `error` string.  The
`model` and `duration_ms` fields are constant metadata and are omitted. -/
inductive GenResult where
  | success (response : String)
  | failure (error : String)
  deriving DecidableEq, Repr

/-- Whether a result dict has `success` set to `True`. -/
def GenResult.isSuccess : GenResult → Bool
  | .success _ => true
  | .failure _ => false

/-- The value of `result["response"]` if the key is present.  Success dicts
always carry the key; failure dicts never do (`get_gemini_response` returns
`success`/`error`/`model` on the except path and `use_stored_prompt` returns
`success`/`error` when the prompt is missing). -/
def GenResult.respField : GenResult → Option String
  | .success r => some r
  | .failure _ => none

/-- Shallow embedding of `get_gemini_response`.  Everything in the function
body runs inside one `try` block; the only operations that can raise are the
external model call and the optional log insert, passed in here as `Except`
values.  `logUser` mirrors the `if user_id:` guard around the log insert.
The `except` branch turns any exception into a failure dict. -/
def get_gemini_response (externalCall : Except String String)
    (logInsert : Except String Unit) (logUser : Bool) : GenResult :=
  match externalCall with
  | .error e => GenResult.failure e
  | .ok text =>
    if logUser then
      match logInsert with
      | .error e => GenResult.failure e
      | .ok _ => GenResult.success text
    else GenResult.success text

/-- A stored prompt document (`prompts` collection), reduced to the fields
`use_stored_prompt` reads. -/
structure StoredPrompt where
  id : String
  content : String
  deriving DecidableEq, Repr

/-- Shallow embedding of `get_stored_prompt`: `find_one({"id": prompt_id})`
over the prompts collection. -/
def get_stored_prompt (prompts : List StoredPrompt) (promptId : String) :
    Option StoredPrompt :=
  prompts.find? (fun p => p.id == promptId)

/-- Shallow embedding of `use_stored_prompt`: returns the not-found failure
dict when the prompt is missing, otherwise delegates to
`get_gemini_response`. -/
def use_stored_prompt (prompts : List StoredPrompt) (promptId : String)
    (externalCall : Except String String) (logInsert : Except String Unit)
    (logUser : Bool) : GenResult :=
  match get_stored_prompt prompts promptId with
  | none => GenResult.failure ("Prompt with ID " ++ promptId ++ " not found")
  | some _ => get_gemini_response externalCall logInsert logUser

/-! ## The short-output re-run heuristic

`analyze_product` and `create_master_recipe` both contain the inlined
pattern: after a first `use_stored_prompt` call, when the result has
`success` truthy AND `response` truthy (i.e. a nonempty string) AND the
response is shorter than 200 characters, the same call is issued once more
and its result replaces the first.  `callResults n` is the result of the
`n`-th issue of the call. -/

/-- Number of generation calls issued and the final accepted result for one
block, mirroring the inline re-run logic. -/
def shortRerun (callResults : Nat → GenResult) : Nat × GenResult :=
  match callResults 0 with
  | GenResult.success r =>
    if r ≠ "" ∧ r.length < 200 then (2, callResults 1)
    else (1, GenResult.success r)
  | GenResult.failure e => (1, GenResult.failure e)

/-! ## Category-key derivation (C8)

Three code sites derive a `(category, subcategory)` pair from a product's
`category_hierarchy` field: the scheduler (`_track_product_category` and
`_cleanup_category_queue`), the analysis executor (`analyze_product`), and
the competitor-analysis path (`run_competitor_analysis`).  The first two
expect a dict `{main_category: ..., sub_categories: [...]}`; the third
indexes it as a flat list (`[0]`/`[1]`). -/

/-- The runtime shape of `product.get("category_hierarchy", {})`.  `hdict`
is the mapping shape with the `main_category` value (absent or a string)
and the `sub_categories` list; `hdict none []` also models a product whose
field is missing (the `.get` default `{}`).  `hlist` is the flat-list
shape indexed positionally by `run_competitor_analysis`. -/
inductive CategoryHierarchy where
  | hdict (main : Option String) (subs : List String)
  | hlist (items : List String)
  deriving DecidableEq, Repr

/-- Python truthiness of the hierarchy value: an empty dict or empty list
is falsy. -/
def CategoryHierarchy.truthy : CategoryHierarchy → Bool
  | .hdict none [] => false
  | .hdict _ _ => true
  | .hlist items => !items.isEmpty

/-- Outcome of deriving a category key at one code site: a derived
`(category, subcategory)` pair, an early return / error-dict return with no
key (`skip`), or an uncaught exception at the derivation (`raised`). -/
inductive KeyResult where
  | ok (category subcategory : String)
  | skip
  | raised
  deriving DecidableEq, Repr

/-- `AnalysisScheduler._track_product_category` (and identically
`_cleanup_category_queue`): `main = hierarchy.get("main_category")`,
`sub = hierarchy.get("sub_categories", [])[-1] if hierarchy.get("sub_categories") else None`,
then `if not main or not sub: return`.  Calling `.get` on a list raises
`AttributeError`. -/
def schedulerCategoryKey : CategoryHierarchy → KeyResult
  | .hlist _ => .raised
  | .hdict main subs =>
    let sub : Option String := if subs.isEmpty then none else subs.getLast?
    match main, sub with
    | some m, some s => if m = "" ∨ s = "" then .skip else .ok m s
    | _, _ => .skip

/-- `analyze_product` (analysis.py lines 39-46): same dict fields, but it
raises `ValueError("Category hierarchy incomplete")` when
`not main_category or not sub_categories`, and takes `sub_categories[-1]`
without checking that the last element is nonempty. -/
def analysisCategoryKey : CategoryHierarchy → KeyResult
  | .hlist _ => .raised
  | .hdict main subs =>
    match main with
    | none => .raised
    | some m =>
      if m = "" ∨ subs.isEmpty then .raised
      else
        match subs.getLast? with
        | some s => .ok m s
        | none => .raised

/-- `run_competitor_analysis` (competitor_analysis.py lines 71-80):
`category = product["category_hierarchy"][0] if product.get("category_hierarchy") else ""`
and `subcategory = product["category_hierarchy"][1] if len(...) > 1 else ""`,
then `if not category or not subcategory:` returns an error dict.  Indexing
a dict with `0` raises `KeyError`. -/
def competitorCategoryKey : CategoryHierarchy → KeyResult
  | .hdict none [] => .skip
  | .hdict _ _ => .raised
  | .hlist items =>
    let category := if items.isEmpty then "" else items.headD ""
    let subcategory := if items.length > 1 then items.getD 1 "" else ""
    if category = "" ∨ subcategory = "" then .skip else .ok category subcategory

/-- `get_category_key` (analysis.py) and the inline
`key = f"..."` string in the scheduler: `main ++ ">" ++ sub`. -/
def get_category_key (main sub : String) : String :=
  main ++ ">" ++ sub

/-! ## Per-block analysis in `analyze_product` (C3, C6) -/

/-- A prompt-block document, reduced to the fields the executor reads. -/
structure PromptBlock where
  id : String
  blockTitle : String
  deriving DecidableEq, Repr

/-- An `AnalysisResult` document as inserted by `analyze_product`, reduced
to the fields the checked properties mention (uuid, timestamps, model name
and the echoed `input_data` omitted). -/
structure AnalysisDoc where
  product_id : String
  prompt_block_id : String
  user_id : String
  output : GenResult
  summary : String
  category : String
  subcategory : String
  deriving DecidableEq, Repr

/-- An entry of the in-memory `analysis_results` map: the raw result dict on
the normal path, or the `f"Error: {str(e)}"` string written by the `except`
branch. -/
inductive MapEntry where
  | resultEntry (r : GenResult)
  | errorEntry (msg : String)
  deriving DecidableEq, Repr

/-- The `str(e)` rendering of the `KeyError` raised by
`result["response"]` when the final result is a failure dict (Python
renders it as the quoted key name). -/
def keyErrorResponseMsg : String := "KeyError: response"

/-- One iteration of the per-block loop in `analyze_product`: issue the
call with the re-run heuristic, then read `result["response"]` as the
summary.  When the final result is a failure dict that read raises
`KeyError`, the `except` branch records an error entry, and no
`AnalysisResult` document is inserted.  Otherwise exactly one document is
inserted and the result dict is recorded in the map. -/
def analyzeBlock (productId userId main sub : String) (block : PromptBlock)
    (callResults : Nat → GenResult) : Option AnalysisDoc × MapEntry :=
  let final := (shortRerun callResults).2
  match final.respField with
  | some r =>
    (some { product_id := productId, prompt_block_id := block.id,
            user_id := userId, output := final, summary := r,
            category := main, subcategory := sub },
     MapEntry.resultEntry final)
  | none => (none, MapEntry.errorEntry ("Error: " ++ keyErrorResponseMsg))

/-- The whole per-block loop of `analyze_product` over the fetched active
blocks, accumulating inserted `AnalysisResult` documents and the in-memory
`analysis_results` map.  (`callResults b n` is the result of the `n`-th
generation call for block id `b`; the batch sleeps do not affect the data
flow and are not modelled.) -/
def analyze_product_blocks (productId userId main sub : String)
    (activeBlocks : List PromptBlock) (callResults : String → Nat → GenResult) :
    List AnalysisDoc × List (String × MapEntry) :=
  activeBlocks.foldl
    (fun acc block =>
      let r := analyzeBlock productId userId main sub block (callResults block.id)
      (acc.1 ++ r.1.toList, acc.2 ++ [(block.blockTitle, r.2)]))
    ([], [])

/-! ## Master recipes (C1, C5, C9) -/

/-- A `MasterRecipe` document as inserted by `create_master_recipe`,
reduced to its identifying triple and the stored `content` (which is the
raw final result dict, success or failure). -/
structure MasterDoc where
  prompt_block_id : String
  category : String
  subcategory : String
  content : GenResult
  deriving DecidableEq, Repr

/-- The existence check `master.find_one({"prompt_block_id": ..,
"category": .., "subcategory": ..})`, as a Boolean over the collection. -/
def masterExists (master : List MasterDoc) (blockId category subcategory : String) : Bool :=
  master.any (fun d =>
    d.prompt_block_id == blockId && d.category == category && d.subcategory == subcategory)

/-- Number of `MasterRecipe` documents stored for one
`(prompt_block_id, category, subcategory)` triple. -/
def masterCount (master : List MasterDoc) (blockId category subcategory : String) : Nat :=
  (master.filter (fun d =>
    d.prompt_block_id == blockId && d.category == category && d.subcategory == subcategory)).length

/-- Shallow embedding of `create_master_recipe` run atomically (no
interleaving): return unchanged if a recipe for the triple exists or if
there are no analyses for it; otherwise issue the generation call with the
re-run heuristic and insert the document UNCONDITIONALLY — the
`if result.get("success")` test only guards the re-run, not the insert.
`analysesNonempty` is whether the `analysis.find({...})` fetch for the
triple returned any rows. -/
def create_master_recipe (master : List MasterDoc) (blockId category subcategory : String)
    (analysesNonempty : Bool) (callResults : Nat → GenResult) : List MasterDoc :=
  if masterExists master blockId category subcategory then master
  else if !analysesNonempty then master
  else master ++ [{ prompt_block_id := blockId, category := category,
                    subcategory := subcategory, content := (shortRerun callResults).2 }]

/-- Poll-loop constants of `check_and_generate_master_recipes`. -/
def max_wait_time : Nat := 20

/-- Fixed poll interval in seconds. -/
def check_interval : Nat := 2

/-- The poll loop of `check_and_generate_master_recipes`.  `poll i` is the
number of distinct analyzed product ids observed by the `i`-th
`analysis.distinct` query.  `fuel` is the number of further loop entries the
`elapsed < max_wait_time` guard still allows (the loop enters with
`elapsed = 0, 2, ..., 18`, so ten polls at most: initial fuel is
`max_wait_time / check_interval - 1 = 9`).  Returns
`(last observed count, number of polls, number of sleeps)`. -/
def pollLoopAux (poll : Nat → Nat) (totalExpected : Nat) :
    Nat → Nat → Nat × Nat × Nat
  | 0, i =>
    let c := poll i
    if totalExpected ≤ c then (c, i + 1, i) else (c, i + 1, i + 1)
  | fuel + 1, i =>
    let c := poll i
    if totalExpected ≤ c then (c, i + 1, i)
    else pollLoopAux poll totalExpected fuel (i + 1)

/-- Shallow embedding of `check_and_generate_master_recipes`: run the poll
loop; if the final observed count is still below `total_expected`, log and
return with the master-recipe collection untouched; otherwise run
`create_master_recipe` for every active prompt block.  Returns the updated
collection together with the poll and sleep counts. -/
def check_and_generate_master_recipes (master : List MasterDoc) (poll : Nat → Nat)
    (totalExpected : Nat) (activeBlocks : List PromptBlock) (category subcategory : String)
    (analysesNonempty : String → Bool) (callResults : String → Nat → GenResult) :
    List MasterDoc × Nat × Nat :=
  let r := pollLoopAux poll totalExpected (max_wait_time / check_interval - 1) 0
  if r.1 < totalExpected then (master, r.2)
  else
    (activeBlocks.foldl
      (fun m b => create_master_recipe m b.id category subcategory
        (analysesNonempty b.id) (callResults b.id)) master,
     r.2)

/-! ## Scheduler (`app/services/scheduler.py`) -/

/-- The `AnalysisTask` object.  `scheduled_time` is in whole seconds since
the epoch, matching `int(datetime.utcnow().timestamp())` granularity used
for the task id. -/
structure AnalysisTask where
  product_id : String
  user_id : String
  project_id : String
  scheduled_time : Nat
  task_id : String
  task_type : String
  prompt_block_id : Option String
  executed : Bool
  success : Bool
  error : Option String
  deriving DecidableEq, Repr

/-- The task-id derivation in `schedule_task`:
`f"{int(datetime.utcnow().timestamp())}_{product_id}"`. -/
def mkTaskId (nowSec : Nat) (productId : String) : String :=
  toString nowSec ++ "_" ++ productId

/-- In-memory scheduler state: the `self.tasks` dict keyed by task id and
the `self.task_queue` FIFO.  (The `running` flag and the category maps are
modelled separately.) -/
structure SchedulerState where
  tasks : List (String × AnalysisTask)
  queue : List AnalysisTask
  deriving DecidableEq, Repr

/-- Python dict assignment `self.tasks[task_id] = task`: any previous
binding of the key is replaced. -/
def dictInsert (m : List (String × AnalysisTask)) (k : String) (v : AnalysisTask) :
    List (String × AnalysisTask) :=
  m.filter (fun kv => kv.1 != k) ++ [(k, v)]

/-- Number of entries stored under a key. -/
def dictCount (m : List (String × AnalysisTask)) (k : String) : Nat :=
  (m.filter (fun kv => kv.1 == k)).length

/-- Lookup `self.tasks[k]`. -/
def dictFind (m : List (String × AnalysisTask)) (k : String) : Option AnalysisTask :=
  (m.find? (fun kv => kv.1 == k)).map Prod.snd

/-- Shallow embedding of `AnalysisScheduler.schedule_task`: build the task
id from the current whole second and the product id, construct the task
with `executed=False`, `success=False`, `error=None`, store it in the dict
(overwriting any task with the same id) and push it on the queue.  The
category tracking and lazy processor start are modelled separately. -/
def schedule_task (st : SchedulerState) (nowSec : Nat) (productId userId projectId : String)
    (delaySeconds : Nat) (taskType : String) (promptBlockId : Option String) :
    String × SchedulerState :=
  let tid := mkTaskId nowSec productId
  let task : AnalysisTask :=
    { product_id := productId, user_id := userId, project_id := projectId,
      scheduled_time := nowSec + delaySeconds, task_id := tid,
      task_type := taskType, prompt_block_id := promptBlockId,
      executed := false, success := false, error := none }
  (tid, { tasks := dictInsert st.tasks tid task, queue := st.queue ++ [task] })

/-! ## Task dispatch outcome handling in `task_processor` (C7) -/

/-- The value the dispatched executor hands back to `task_processor`, as
far as the status-setting code inspects it: a dict (string-keyed entries
with string values — all three executors produce exactly that), a bare
string, or `None`. -/
inductive ExecResult where
  | rdict (entries : List (String × String))
  | rstr (s : String)
  | rnone
  deriving DecidableEq, Repr

/-- Python truthiness of the result value. -/
def ExecResult.truthy : ExecResult → Bool
  | .rdict entries => !entries.isEmpty
  | .rstr s => s != ""
  | .rnone => false

/-- `isinstance(result, dict) and "error" in result`. -/
def ExecResult.hasErrorKey : ExecResult → Bool
  | .rdict entries => entries.any (fun kv => kv.1 == "error")
  | _ => false

/-- The error message captured on the failure branch:
`result.get("error", "Analysis failed with no result")` for a dict,
`"Analysis failed"` otherwise. -/
def ExecResult.failureMsg : ExecResult → String
  | .rdict entries =>
    match entries.find? (fun kv => kv.1 == "error") with
    | some kv => kv.2
    | none => "Analysis failed with no result"
  | _ => "Analysis failed"

/-- How one dispatch ended: the executor returned a value, or an exception
(including `asyncio.TimeoutError` from `wait_for`) escaped it. -/
inductive ExecOutcome where
  | ok (r : ExecResult)
  | exc (msg : String)
  deriving DecidableEq, Repr

/-- The status-setting block of `AnalysisScheduler.task_processor`
(scheduler.py lines 186-199): both branches set `executed=True`; a truthy
result that is not a dict with an `"error"` key sets `success=True`; any
other result, or an exception, sets `success=False` and a captured error
message. -/
def task_processor_outcome (task : AnalysisTask) (outcome : ExecOutcome) : AnalysisTask :=
  match outcome with
  | .exc msg => { task with executed := true, success := false, error := some msg }
  | .ok r =>
    if r.truthy && !r.hasErrorKey then
      { task with executed := true, success := true }
    else
      { task with executed := true, success := false, error := some r.failureMsg }

/-! ## Category pending-set tracking and completion triggers (C2)

Per category key the scheduler holds `category_task_queues[key]` (a set of
product ids) and `category_task_locks[key]`; the analysis module separately
holds `category_queues[key]` (a list) and its own `category_locks[key]`.
The state below tracks both structures for one category key, plus how many
times `check_and_generate_master_recipes` has been invoked for that key. -/

structure CategoryState where
  pendingSet : List String
  analysisQueue : List String
  checkerCalls : Nat
  deriving DecidableEq, Repr

/-- `set.discard(product_id)` on the pending set. -/
def setDiscard (s : List String) (productId : String) : List String :=
  s.filter (fun q => q != productId)

/-- `AnalysisScheduler._cleanup_category_queue` for a tracked product:
under the category's scheduler lock, discard the product id; if the set is
then empty, invoke `check_and_generate_master_recipes` for the key. -/
def cleanup_category_queue (st : CategoryState) (productId : String) : CategoryState :=
  let pending := setDiscard st.pendingSet productId
  if pending.isEmpty then
    { st with pendingSet := pending, checkerCalls := st.checkerCalls + 1 }
  else { st with pendingSet := pending }

/-- `queue_product_for_analysis` (analysis.py lines 295-306), reached at
the end of every `analyze_product` run: under the analysis-module lock,
append the product id to `category_queues[key]` and UNCONDITIONALLY invoke
`check_and_generate_master_recipes` for the key. -/
def queue_product_for_analysis (st : CategoryState) (productId : String) : CategoryState :=
  { st with analysisQueue := st.analysisQueue ++ [productId],
            checkerCalls := st.checkerCalls + 1 }

/-- Completion of one standard-analysis task in `task_processor`: the
awaited `analyze_product` ends by running `queue_product_for_analysis`,
after which the worker runs `_cleanup_category_queue` for the same
product. -/
def completeStandardTask (st : CategoryState) (productId : String) : CategoryState :=
  cleanup_category_queue (queue_product_for_analysis st productId) productId

/-- All `K` tracked products of one category completing their tasks in
order through the single worker loop. -/
def runStandardTasks (st : CategoryState) (productIds : List String) : CategoryState :=
  productIds.foldl completeStandardTask st

/-- Only the scheduler drain hook firing for each product (the
`untrack_and_maybe_drain` path of the spec), with no executor-side
trigger. -/
def runDrainOnly (st : CategoryState) (productIds : List String) : CategoryState :=
  productIds.foldl cleanup_category_queue st

/-! ## Interleaving two completion triggers (C1)

`create_master_recipe` reads the master-recipe collection in its existence
check and writes it in its insert; between the two sit further awaits (the
analyses fetch and the generation call), so a concurrently running second
trigger can interleave.  A trigger for the executor path runs while holding
`analysis.category_locks[key]`; a trigger for the scheduler drain path runs
while holding `scheduler.category_task_locks[key]` — two distinct lock
objects, so the per-category locks do not serialize the two paths against
each other.  Each trigger thread below performs its existence check and its
conditional insert as two separate atomic steps against the shared
collection. -/

/-- Program counter of one in-flight `create_master_recipe` execution:
not yet started; past the existence check (recording whether it decided to
insert — no existing recipe and a nonempty analyses fetch); finished. -/
inductive TriggerPc where
  | notStarted
  | checked (willInsert : Bool)
  | finished
  deriving DecidableEq, Repr

/-- One trigger thread: the lock object it holds (named by the module-level
dict it came from), the recipe key it targets, whether its analyses fetch
returns rows, its generation-call results, and its program counter. -/
structure TriggerThread where
  lockName : String
  blockId : String
  category : String
  subcategory : String
  analysesNonempty : Bool
  callResults : Nat → GenResult
  pc : TriggerPc

/-- One atomic step of a trigger thread against the shared master-recipe
collection. -/
def triggerStep (master : List MasterDoc) (t : TriggerThread) :
    List MasterDoc × TriggerThread :=
  match t.pc with
  | .notStarted =>
    (master,
     { t with pc := TriggerPc.checked
                      (!masterExists master t.blockId t.category t.subcategory &&
                        t.analysesNonempty) })
  | .checked w =>
    ((if w then
        master ++ [{ prompt_block_id := t.blockId, category := t.category,
                     subcategory := t.subcategory,
                     content := (shortRerun t.callResults).2 }]
      else master),
     { t with pc := TriggerPc.finished })
  | .finished => (master, t)

/-- Run a schedule over two trigger threads; `false` steps thread 0 and
`true` steps thread 1. -/
def runTriggers : List Bool → List MasterDoc → TriggerThread → TriggerThread →
    List MasterDoc × TriggerThread × TriggerThread
  | [], master, t0, t1 => (master, t0, t1)
  | false :: rest, master, t0, t1 =>
    let s := triggerStep master t0
    runTriggers rest s.1 s.2 t1
  | true :: rest, master, t0, t1 =>
    let s := triggerStep master t1
    runTriggers rest s.1 t0 s.2

/-- The two serialized schedules of two two-step threads.  A per-category
lock serializes two triggers only when both hold the SAME lock object; when
the threads' `lockName`s differ (as the executor path and the scheduler
drain path do), any interleaving is admissible. -/
def serializedSchedules : List (List Bool) :=
  [[false, false, true, true], [true, true, false, false]]

/-- A schedule is admissible for two threads when either they hold
different locks, or the schedule is serialized. -/
def admissibleSchedule (t0 t1 : TriggerThread) (sched : List Bool) : Prop :=
  t0.lockName = t1.lockName → sched ∈ serializedSchedules

/-! ## Helper lemmas -/

/-- Every generation result is a success dict or a failure dict. -/
theorem genResult_shape (r : GenResult) :
    (∃ t, r = GenResult.success t) ∨ (∃ e, r = GenResult.failure e) := by
  cases r with
  | success t => exact Or.inl ⟨t, rfl⟩
  | failure e => exact Or.inr ⟨e, rfl⟩

/-! ## C10 -/

/-- C10: The generation client is total at its interface: whatever the
external call, the log insert and the `user_id` guard do,
`get_gemini_response` returns a success dict with a response or a failure
dict with an error, and never propagates an exception; `use_stored_prompt`
likewise, and when the stored prompt is missing it returns the not-found
failure dict rather than raising. -/
theorem c10_generation_client_total (externalCall : Except String String)
    (logInsert : Except String Unit) (logUser : Bool)
    (prompts : List StoredPrompt) (promptId : String) :
    ((∃ t, get_gemini_response externalCall logInsert logUser = GenResult.success t) ∨
      (∃ e, get_gemini_response externalCall logInsert logUser = GenResult.failure e)) ∧
    ((∃ t, use_stored_prompt prompts promptId externalCall logInsert logUser =
            GenResult.success t) ∨
      (∃ e, use_stored_prompt prompts promptId externalCall logInsert logUser =
            GenResult.failure e)) ∧
    (get_stored_prompt prompts promptId = none →
      use_stored_prompt prompts promptId externalCall logInsert logUser =
        GenResult.failure ("Prompt with ID " ++ promptId ++ " not found")) := by
  refine ⟨genResult_shape _, genResult_shape _, ?_⟩
  intro h
  simp [use_stored_prompt, h]

/-- Witness for C10 at concrete inputs: an empty prompt store yields the
not-found failure dict. -/
theorem c10_generation_client_total_witness :
    use_stored_prompt [] "p1" (Except.ok "hello") (Except.ok ()) true =
      GenResult.failure ("Prompt with ID " ++ "p1" ++ " not found") :=
  (c10_generation_client_total (Except.ok "hello") (Except.ok ()) true [] "p1").2.2 rfl

/-! ## C7 -/

/-- C7: After the dispatch-handling block of `task_processor`, the task has
`executed=true`; `success=true` holds exactly when the executor returned a
truthy result that is not a dict containing an `"error"` key; any
exception/timeout or falsy/erroring result yields `success=false` together
with a non-null error message. -/
theorem c7_task_outcome (task : AnalysisTask) (outcome : ExecOutcome) :
    (task_processor_outcome task outcome).executed = true ∧
    ((task_processor_outcome task outcome).success = true ↔
      ∃ r, outcome = ExecOutcome.ok r ∧ r.truthy = true ∧ r.hasErrorKey = false) ∧
    ((task_processor_outcome task outcome).success = false →
      ∃ m, (task_processor_outcome task outcome).error = some m) := by
  cases outcome with
  | exc msg =>
    refine ⟨rfl, ?_, fun _ => ⟨msg, rfl⟩⟩
    simp [task_processor_outcome]
  | ok r =>
    by_cases h : (r.truthy && !r.hasErrorKey) = true
    · have h2 : r.truthy = true ∧ r.hasErrorKey = false := by
        simpa [Bool.and_eq_true, Bool.not_eq_true'] using h
      refine ⟨?_, ?_, ?_⟩
      · simp [task_processor_outcome, h]
      · simp only [task_processor_outcome, h, if_true]
        constructor
        · intro _; exact ⟨r, rfl, h2.1, h2.2⟩
        · intro _; trivial
      · simp [task_processor_outcome, h]
    · have hb : (r.truthy && !r.hasErrorKey) = false := by
        revert h; cases (r.truthy && !r.hasErrorKey) <;> simp
      refine ⟨?_, ?_, ?_⟩
      · simp [task_processor_outcome, hb]
      · simp only [task_processor_outcome, hb, Bool.false_eq_true, if_false]
        constructor
        · intro hfalse; cases hfalse
        · rintro ⟨r2, hr2, ht, he⟩
          cases hr2
          exact absurd h (by simp [ht, he])
      · intro _
        exact ⟨r.failureMsg, by simp [task_processor_outcome, hb]⟩

/-- Witness for C7 at concrete inputs: an executor result
`{"error": "Product not found"}` marks the task failed with that error,
and a plain truthy result dict marks it succeeded. -/
theorem c7_task_outcome_witness :
    ((task_processor_outcome
        { product_id := "p", user_id := "u", project_id := "j", scheduled_time := 0,
          task_id := "0_p", task_type := "standard_analysis", prompt_block_id := none,
          executed := false, success := false, error := none }
        (ExecOutcome.ok (ExecResult.rdict [("error", "Product not found")]))).success = true ↔
      ∃ r, ExecOutcome.ok (ExecResult.rdict [("error", "Product not found")]) =
            ExecOutcome.ok r ∧ r.truthy = true ∧ r.hasErrorKey = false) :=
  (c7_task_outcome _ _).2.1

/-! ## C6 -/

/-- C6 counterexample: a first call that reports success with the EMPTY
response — a response shorter than 200 characters — is NOT re-run: the
code tests `result.get("response")` for truthiness before testing its
length, so only one generation call is issued, contradicting the claim
that every successful sub-200-character response triggers exactly one
re-run. -/
theorem c6_short_rerun_counterexample :
    (fun _ : Nat => GenResult.success "") 0 = GenResult.success "" ∧
    "".length < 200 ∧
    (shortRerun (fun _ => GenResult.success "")).1 = 1 ∧
    (shortRerun (fun _ => GenResult.success "")).1 ≠ 2 := by
  refine ⟨rfl, by decide, by decide, by decide⟩

/-- C6 (amended): the re-run fires exactly when the first call succeeds
with a NONEMPTY response shorter than 200 characters, in which case exactly
two calls are issued and the second result is the accepted one; a first
response that is empty, of length at least 200, or a failure, is accepted
after a single call.  Whenever a document is persisted for the block, its
`output` is the accepted (post-re-run) result. -/
theorem c6_short_rerun_amended (callResults : Nat → GenResult) :
    (∀ r, callResults 0 = GenResult.success r → r ≠ "" → r.length < 200 →
      shortRerun callResults = (2, callResults 1)) ∧
    (∀ r, callResults 0 = GenResult.success r → (r = "" ∨ 200 ≤ r.length) →
      shortRerun callResults = (1, GenResult.success r)) ∧
    (∀ e, callResults 0 = GenResult.failure e →
      shortRerun callResults = (1, GenResult.failure e)) ∧
    (∀ productId userId main sub block d,
      (analyzeBlock productId userId main sub block callResults).1 = some d →
      d.output = (shortRerun callResults).2) := by
  refine ⟨?_, ?_, ?_, ?_⟩
  · intro r h hne hlen
    simp [shortRerun, h, hne, hlen]
  · intro r h hcase
    rcases hcase with he | hge
    · subst he; simp [shortRerun, h]
    · have : ¬ r.length < 200 := by omega
      simp [shortRerun, h, this]
  · intro e h
    simp [shortRerun, h]
  · intro productId userId main sub block d hd
    simp only [analyzeBlock] at hd
    cases hr : ((shortRerun callResults).2).respField with
    | none => rw [hr] at hd; cases hd
    | some r =>
      rw [hr] at hd
      simp only [Option.some.injEq] at hd
      have := congrArg AnalysisDoc.output hd
      simp at this
      exact this.symm

/-- Witness for C6 at concrete inputs: a 2-character success on the first
call and a distinct result on the second — two calls issued and the second
accepted. -/
theorem c6_short_rerun_amended_witness :
    shortRerun (fun n => if n = 0 then GenResult.success "hi"
                          else GenResult.success "second") =
      (2, (fun n => if n = 0 then GenResult.success "hi"
                    else GenResult.success "second") 1) :=
  (c6_short_rerun_amended _).1 "hi" rfl (by decide) (by decide)

/-! ## C3 -/

/-- The per-block loop of `analyze_product` unfolded: the inserted
documents are those of the blocks whose accepted result is a success, in
block order, and the in-memory map receives one entry per block. -/
theorem analyze_product_blocks_go (productId userId main sub : String)
    (callResults : String → Nat → GenResult) (blocks : List PromptBlock) :
    ∀ (acc1 : List AnalysisDoc) (acc2 : List (String × MapEntry)),
      blocks.foldl
        (fun acc block =>
          let r := analyzeBlock productId userId main sub block (callResults block.id)
          (acc.1 ++ r.1.toList, acc.2 ++ [(block.blockTitle, r.2)]))
        (acc1, acc2) =
      (acc1 ++ blocks.filterMap
          (fun b => (analyzeBlock productId userId main sub b (callResults b.id)).1),
       acc2 ++ blocks.map
          (fun b => (b.blockTitle,
            (analyzeBlock productId userId main sub b (callResults b.id)).2))) := by
  induction blocks with
  | nil => intro acc1 acc2; simp
  | cons b bs ih =>
    intro acc1 acc2
    rw [List.foldl_cons, ih]
    cases hb : (analyzeBlock productId userId main sub b (callResults b.id)).1 with
    | none => simp [hb]
    | some d => simp [hb]

/-- The document for a block exists iff the accepted result is a success. -/
theorem analyzeBlock_doc_isSome (productId userId main sub : String)
    (block : PromptBlock) (callResults : Nat → GenResult) :
    (analyzeBlock productId userId main sub block callResults).1.isSome =
      ((shortRerun callResults).2).isSuccess := by
  unfold analyzeBlock
  cases hr : (shortRerun callResults).2 with
  | success r => simp [GenResult.respField, GenResult.isSuccess]
  | failure e => simp [GenResult.respField, GenResult.isSuccess]

/-- Length of a `filterMap` equals the length of the filter by
definedness. -/
theorem length_filterMap_eq_filter {α β : Type} (f : α → Option β) (p : α → Bool)
    (hfp : ∀ a, (f a).isSome = p a) :
    ∀ l : List α, (l.filterMap f).length = (l.filter p).length := by
  intro l
  induction l with
  | nil => simp
  | cons a as ih =>
    cases hfa : f a with
    | none =>
      have hpa : p a = false := by rw [← hfp a, hfa]; rfl
      simp [List.filterMap_cons, List.filter_cons, hfa, hpa, ih]
    | some b =>
      have hpa : p a = true := by rw [← hfp a, hfa]; rfl
      simp [List.filterMap_cons, List.filter_cons, hfa, hpa, ih]

/-- C3 counterexample: a product analyzed against one active block whose
generation call fails persists ZERO `AnalysisResult` documents, not one —
the `result["response"]` read raises `KeyError` before the insert, and the
`except` branch only records an in-memory error entry. -/
theorem c3_analysis_rows_counterexample :
    (analyze_product_blocks "prod-1" "user-1" "Home" "Kitchen"
        [{ id := "blk-1", blockTitle := "Block One" }]
        (fun _ _ => GenResult.failure "api down")).1.length = 0 ∧
    (analyze_product_blocks "prod-1" "user-1" "Home" "Kitchen"
        [{ id := "blk-1", blockTitle := "Block One" }]
        (fun _ _ => GenResult.failure "api down")).1.length ≠ 1 ∧
    (analyze_product_blocks "prod-1" "user-1" "Home" "Kitchen"
        [{ id := "blk-1", blockTitle := "Block One" }]
        (fun _ _ => GenResult.failure "api down")).2 =
      [("Block One", MapEntry.errorEntry ("Error: " ++ keyErrorResponseMsg))] := by
  refine ⟨by decide, by decide, by decide⟩

/-- C3 (amended): `analyze_product` persists exactly one `AnalysisResult`
document per block whose accepted generation result is a success — blocks
whose call fails persist nothing and record an error string in the
in-memory map instead — and every block receives a map entry, so a failing
block does not abort processing of the remaining blocks. -/
theorem c3_analysis_rows_amended (productId userId main sub : String)
    (blocks : List PromptBlock) (callResults : String → Nat → GenResult) :
    (analyze_product_blocks productId userId main sub blocks callResults).1.length =
      (blocks.filter (fun b => ((shortRerun (callResults b.id)).2).isSuccess)).length ∧
    (analyze_product_blocks productId userId main sub blocks callResults).2 =
      blocks.map (fun b => (b.blockTitle,
        (analyzeBlock productId userId main sub b (callResults b.id)).2)) := by
  unfold analyze_product_blocks
  rw [analyze_product_blocks_go]
  constructor
  · simp only [List.nil_append]
    exact length_filterMap_eq_filter _ _
      (fun b => analyzeBlock_doc_isSome productId userId main sub b (callResults b.id)) blocks
  · simp

/-! ## C4 -/

/-- Appending to a fixed string on the left is injective. -/
theorem string_append_right_inj (s : String) {a b : String} (h : s ++ a = s ++ b) :
    a = b := by
  have hd : (s ++ a).data = (s ++ b).data := congrArg String.data h
  cases s with
  | mk ds =>
    cases a with
    | mk da =>
      cases b with
      | mk db =>
        have hlist : ds ++ da = ds ++ db := hd
        have : da = db := List.append_cancel_left hlist
        exact congrArg String.mk this

/-- The python dict assignment leaves exactly one binding under the key. -/
theorem dictCount_insert (m : List (String × AnalysisTask)) (k : String) (v : AnalysisTask) :
    dictCount (dictInsert m k v) k = 1 := by
  unfold dictCount dictInsert
  rw [List.filter_append]
  have hnil : (m.filter (fun kv => kv.1 != k)).filter (fun kv => kv.1 == k) = [] := by
    rw [List.filter_filter]
    apply List.filter_eq_nil_iff.mpr
    intro kv _
    cases hk : kv.1 == k <;> simp [hk, bne]
  rw [hnil]
  simp

/-- After the python dict assignment, looking up the key yields the newly
assigned value. -/
theorem dictFind_insert (m : List (String × AnalysisTask)) (k : String) (v : AnalysisTask) :
    dictFind (dictInsert m k v) k = some v := by
  unfold dictFind dictInsert
  rw [List.find?_append]
  have hnone : (m.filter (fun kv => kv.1 != k)).find? (fun kv => kv.1 == k) = none := by
    apply List.find?_eq_none.mpr
    intro kv hkv
    have := List.of_mem_filter hkv
    cases hk : kv.1 == k
    · simp [hk]
    · simp [bne, hk] at this
  rw [hnone]
  simp

/-- C4 counterexample: two `schedule_task` calls in the same UTC second for
the same product produce the SAME task id (the id is only
second-timestamp + product id), and the second call overwrites the first
in the in-memory task dict — there is one stored task, not two independent
ones — although both tasks are enqueued. -/
theorem c4_task_id_counterexample :
    (schedule_task { tasks := [], queue := [] } 100 "prod-1" "user-1" "proj-1" 0
        "standard_analysis" none).1 =
      (schedule_task
        (schedule_task { tasks := [], queue := [] } 100 "prod-1" "user-1" "proj-1" 0
          "standard_analysis" none).2
        100 "prod-1" "user-2" "proj-2" 0 "standard_analysis" none).1 ∧
    dictCount
      (schedule_task
        (schedule_task { tasks := [], queue := [] } 100 "prod-1" "user-1" "proj-1" 0
          "standard_analysis" none).2
        100 "prod-1" "user-2" "proj-2" 0 "standard_analysis" none).2.tasks
      (mkTaskId 100 "prod-1") = 1 ∧
    (schedule_task
      (schedule_task { tasks := [], queue := [] } 100 "prod-1" "user-1" "proj-1" 0
        "standard_analysis" none).2
      100 "prod-1" "user-2" "proj-2" 0 "standard_analysis" none).2.queue.length = 2 := by
  refine ⟨by decide, by decide, by decide⟩

/-- C4 (amended): task ids are unique only across distinct
(second-timestamp, product) pairs: at one timestamp, distinct products get
distinct ids, but two calls in the same second for the same product yield
the SAME id, the second stored task overwrites the first in the task dict
(exactly one binding, holding the second call's task), and both tasks are
nonetheless enqueued (no deduplication in the queue). -/
theorem c4_task_id_amended (nowSec : Nat) (p q : String) :
    (p ≠ q → mkTaskId nowSec p ≠ mkTaskId nowSec q) ∧
    (∀ (st : SchedulerState) (u1 pr1 : String) (d1 : Nat) (tt1 : String)
        (pb1 : Option String) (u2 pr2 : String) (d2 : Nat) (tt2 : String)
        (pb2 : Option String),
      (schedule_task (schedule_task st nowSec p u1 pr1 d1 tt1 pb1).2
          nowSec p u2 pr2 d2 tt2 pb2).1 =
        (schedule_task st nowSec p u1 pr1 d1 tt1 pb1).1 ∧
      dictCount (schedule_task (schedule_task st nowSec p u1 pr1 d1 tt1 pb1).2
          nowSec p u2 pr2 d2 tt2 pb2).2.tasks (mkTaskId nowSec p) = 1 ∧
      (dictFind (schedule_task (schedule_task st nowSec p u1 pr1 d1 tt1 pb1).2
          nowSec p u2 pr2 d2 tt2 pb2).2.tasks (mkTaskId nowSec p)).map
            AnalysisTask.user_id = some u2 ∧
      (schedule_task (schedule_task st nowSec p u1 pr1 d1 tt1 pb1).2
          nowSec p u2 pr2 d2 tt2 pb2).2.queue.length = st.queue.length + 2) := by
  constructor
  · intro hpq heq
    exact hpq (string_append_right_inj (toString nowSec ++ "_") heq)
  · intro st u1 pr1 d1 tt1 pb1 u2 pr2 d2 tt2 pb2
    refine ⟨rfl, ?_, ?_, ?_⟩
    · exact dictCount_insert _ _ _
    · rw [show (schedule_task (schedule_task st nowSec p u1 pr1 d1 tt1 pb1).2
          nowSec p u2 pr2 d2 tt2 pb2).2.tasks =
          dictInsert (schedule_task st nowSec p u1 pr1 d1 tt1 pb1).2.tasks
            (mkTaskId nowSec p)
            { product_id := p, user_id := u2, project_id := pr2,
              scheduled_time := nowSec + d2, task_id := mkTaskId nowSec p,
              task_type := tt2, prompt_block_id := pb2,
              executed := false, success := false, error := none } from rfl]
      rw [dictFind_insert]
      rfl
    · simp [schedule_task]

/-- Witness for C4 at concrete inputs: products "a" and "b" scheduled at
the same second get distinct ids. -/
theorem c4_task_id_amended_witness :
    mkTaskId 100 "a" ≠ mkTaskId 100 "b" :=
  (c4_task_id_amended 100 "a" "b").1 (by decide)

/-! ## C2 -/

/-- Discarding the head of a duplicate-free pending set leaves the tail. -/
theorem setDiscard_cons_self (p : String) (rest : List String) (h : p ∉ rest) :
    setDiscard (p :: rest) p = rest := by
  unfold setDiscard
  rw [List.filter_cons]
  have hp : (p != p) = false := by simp
  rw [hp]
  simp only [Bool.false_eq_true, if_false]
  apply List.filter_eq_self.mpr
  intro q hq
  have : q ≠ p := fun hqp => h (hqp ▸ hq)
  simp [bne, this]

/-- Draining a duplicate-free pending set through
`_cleanup_category_queue`, one call per tracked product: the set empties
and the completion checker fires exactly once, at the last removal. -/
theorem runDrainOnly_spec :
    ∀ (ps : List String), ps.Nodup → ∀ (aq : List String) (n : Nat),
      runDrainOnly { pendingSet := ps, analysisQueue := aq, checkerCalls := n } ps =
        { pendingSet := [], analysisQueue := aq,
          checkerCalls := if ps.isEmpty then n else n + 1 } := by
  intro ps
  induction ps with
  | nil => intro _ aq n; rfl
  | cons p rest ih =>
    intro hnd aq n
    have hmem : p ∉ rest := (List.nodup_cons.mp hnd).1
    have hrest : rest.Nodup := (List.nodup_cons.mp hnd).2
    unfold runDrainOnly at ih ⊢
    rw [List.foldl_cons]
    have hclean : cleanup_category_queue
        { pendingSet := p :: rest, analysisQueue := aq, checkerCalls := n } p =
        { pendingSet := rest, analysisQueue := aq,
          checkerCalls := if rest.isEmpty then n + 1 else n } := by
      unfold cleanup_category_queue
      rw [setDiscard_cons_self p rest hmem]
      cases hre : rest.isEmpty <;> simp [hre]
    rw [hclean]
    cases hre : rest.isEmpty
    · simp only [Bool.false_eq_true, if_false]
      rw [ih hrest aq n, hre]
      simp
    · have hnil : rest = [] := List.isEmpty_iff.mp hre
      subst hnil
      simp

/-- One completed standard-analysis task: the executor-side trigger fires
unconditionally, then the scheduler drain hook fires iff the set drained. -/
theorem completeStandardTask_eq (st : CategoryState) (p : String) :
    completeStandardTask st p =
      (let pending := setDiscard st.pendingSet p
       { pendingSet := pending, analysisQueue := st.analysisQueue ++ [p],
         checkerCalls := st.checkerCalls + 1 + (if pending.isEmpty then 1 else 0) }) := by
  unfold completeStandardTask cleanup_category_queue queue_product_for_analysis
  cases hp : (setDiscard st.pendingSet p).isEmpty <;> simp [hp]

/-- Completing all tasks of a duplicate-free category in order: the set
empties, each product lands on the analysis-module queue, and the checker
has been invoked once per product (by `queue_product_for_analysis`) plus
once at the final drain. -/
theorem runStandardTasks_spec :
    ∀ (ps : List String), ps.Nodup → ∀ (aq : List String) (n : Nat),
      runStandardTasks { pendingSet := ps, analysisQueue := aq, checkerCalls := n } ps =
        { pendingSet := [], analysisQueue := aq ++ ps,
          checkerCalls := n + ps.length + (if ps.isEmpty then 0 else 1) } := by
  intro ps
  induction ps with
  | nil => intro _ aq n; simp [runStandardTasks]
  | cons p rest ih =>
    intro hnd aq n
    have hmem : p ∉ rest := (List.nodup_cons.mp hnd).1
    have hrest : rest.Nodup := (List.nodup_cons.mp hnd).2
    unfold runStandardTasks at ih ⊢
    rw [List.foldl_cons, completeStandardTask_eq]
    simp only [setDiscard_cons_self p rest hmem]
    cases hre : rest.isEmpty
    · have h1 : runStandardTasks
          { pendingSet := rest, analysisQueue := aq ++ [p],
            checkerCalls := n + 1 + 0 } rest =
          { pendingSet := [], analysisQueue := (aq ++ [p]) ++ rest,
            checkerCalls := (n + 1 + 0) + rest.length + (if rest.isEmpty then 0 else 1) } :=
        ih hrest (aq ++ [p]) (n + 1 + 0)
      unfold runStandardTasks at h1
      simp only [hre, Bool.false_eq_true, if_false] at h1 ⊢
      rw [h1]
      have : rest ≠ [] := by
        intro hnil; rw [hnil] at hre; simp at hre
      simp [List.isEmpty_iff, this, List.append_assoc]
      omega
    · have hnil : rest = [] := List.isEmpty_iff.mp hre
      subst hnil
      simp

/-- C2 counterexample: a category with two tracked products whose two
standard-analysis tasks complete sees `check_and_generate_master_recipes`
invoked THREE times — once per product from `queue_product_for_analysis`
at the end of each `analyze_product`, plus once from the scheduler drain
hook when the pending set empties — not exactly once. -/
theorem c2_checker_count_counterexample :
    runStandardTasks
        { pendingSet := ["p1", "p2"], analysisQueue := [], checkerCalls := 0 }
        ["p1", "p2"] =
      { pendingSet := [], analysisQueue := ["p1", "p2"], checkerCalls := 3 } ∧
    (runStandardTasks
        { pendingSet := ["p1", "p2"], analysisQueue := [], checkerCalls := 0 }
        ["p1", "p2"]).checkerCalls ≠ 1 := by
  refine ⟨by decide, by decide⟩

/-- C2 (amended): after all K tracked products of a category complete,
the pending set is empty; restricted to the scheduler drain hook
(`_cleanup_category_queue`, the spec's `untrack_and_maybe_drain`) the
completion checker fires exactly once — at the last removal — but counting
the executor's unconditional per-product trigger in
`queue_product_for_analysis`, the checker is invoked K + 1 times in total,
not once. -/
theorem c2_checker_count_amended (ps : List String) (aq : List String)
    (hnd : ps.Nodup) (hne : ps ≠ []) :
    runDrainOnly { pendingSet := ps, analysisQueue := aq, checkerCalls := 0 } ps =
      { pendingSet := [], analysisQueue := aq, checkerCalls := 1 } ∧
    runStandardTasks { pendingSet := ps, analysisQueue := aq, checkerCalls := 0 } ps =
      { pendingSet := [], analysisQueue := aq ++ ps,
        checkerCalls := ps.length + 1 } := by
  have hre : ps.isEmpty = false := by
    cases ps with
    | nil => exact absurd rfl hne
    | cons a as => rfl
  constructor
  · rw [runDrainOnly_spec ps hnd aq 0, hre]
    rfl
  · rw [runStandardTasks_spec ps hnd aq 0, hre]
    simp [Nat.add_comm]

/-- Witness for C2 at concrete inputs: three tracked products drain to an
empty set with one drain-hook invocation, and full task completion invokes
the checker four times. -/
theorem c2_checker_count_amended_witness :
    runDrainOnly
        { pendingSet := ["p1", "p2", "p3"], analysisQueue := [], checkerCalls := 0 }
        ["p1", "p2", "p3"] =
      { pendingSet := [], analysisQueue := [], checkerCalls := 1 } ∧
    runStandardTasks
        { pendingSet := ["p1", "p2", "p3"], analysisQueue := [], checkerCalls := 0 }
        ["p1", "p2", "p3"] =
      { pendingSet := [], analysisQueue := ["p1", "p2", "p3"], checkerCalls := 4 } :=
  c2_checker_count_amended ["p1", "p2", "p3"] [] (by decide) (by decide)

/-! ## C5 -/

/-- The poll loop issues at most `i + fuel + 1` polls and at most
`i + fuel + 1` sleeps when started at poll index `i`. -/
theorem pollLoopAux_bounds (poll : Nat → Nat) (totalExpected : Nat) :
    ∀ (fuel i : Nat),
      (pollLoopAux poll totalExpected fuel i).2.1 ≤ i + fuel + 1 ∧
      (pollLoopAux poll totalExpected fuel i).2.2 ≤ i + fuel + 1 := by
  intro fuel
  induction fuel with
  | zero =>
    intro i
    unfold pollLoopAux
    by_cases h : totalExpected ≤ poll i
    · simp [h]
    · simp [h]
  | succ f ih =>
    intro i
    unfold pollLoopAux
    by_cases h : totalExpected ≤ poll i
    · simp [h]; omega
    · simp only [h, if_false]
      have := ih (i + 1)
      constructor <;> [exact le_trans this.1 (by omega); exact le_trans this.2 (by omega)]

/-- If no poll ever reaches the expected count, the loop runs to
exhaustion and its final observed count is the last poll's value. -/
theorem pollLoopAux_timeout (poll : Nat → Nat) (totalExpected : Nat)
    (h : ∀ j, poll j < totalExpected) :
    ∀ (fuel i : Nat), (pollLoopAux poll totalExpected fuel i).1 = poll (i + fuel) := by
  intro fuel
  induction fuel with
  | zero =>
    intro i
    unfold pollLoopAux
    have := h i
    have hx : ¬ totalExpected ≤ poll i := by omega
    simp [hx]
  | succ f ih =>
    intro i
    unfold pollLoopAux
    have := h i
    have hx : ¬ totalExpected ≤ poll i := by omega
    simp only [hx, if_false]
    rw [ih (i + 1)]
    congr 1
    omega

/-- If some poll within the loop's budget reaches the expected count,
the loop exits with a count at least the expected one. -/
theorem pollLoopAux_reach (poll : Nat → Nat) (totalExpected : Nat) :
    ∀ (fuel i j : Nat), i ≤ j → j ≤ i + fuel → totalExpected ≤ poll j →
      totalExpected ≤ (pollLoopAux poll totalExpected fuel i).1 := by
  intro fuel
  induction fuel with
  | zero =>
    intro i j hij hji hpj
    have : j = i := by omega
    subst this
    unfold pollLoopAux
    simp [hpj]
  | succ f ih =>
    intro i j hij hji hpj
    unfold pollLoopAux
    by_cases h : totalExpected ≤ poll i
    · simp [h]
    · simp only [h, if_false]
      have hji2 : j ≤ (i + 1) + f := by omega
      have hij2 : i + 1 ≤ j := by
        rcases Nat.eq_or_lt_of_le hij with heq | hlt
        · subst heq; exact absurd hpj h
        · omega
      exact ih (i + 1) j hij2 hji2 hpj

/-- Folding `create_master_recipe` over blocks none of whose keys exist
yet, all with analyses present and duplicate-free ids, appends exactly one
new document per block. -/
theorem foldCreate_fresh (category subcategory : String) (analysesNonempty : String → Bool)
    (callResults : String → Nat → GenResult) :
    ∀ (blocks : List PromptBlock) (master : List MasterDoc),
      (blocks.map PromptBlock.id).Nodup →
      (∀ b ∈ blocks, masterExists master b.id category subcategory = false) →
      (∀ b ∈ blocks, analysesNonempty b.id = true) →
      blocks.foldl
        (fun m b => create_master_recipe m b.id category subcategory
          (analysesNonempty b.id) (callResults b.id)) master =
      master ++ blocks.map (fun b =>
        { prompt_block_id := b.id, category := category, subcategory := subcategory,
          content := (shortRerun (callResults b.id)).2 }) := by
  intro blocks
  induction blocks with
  | nil => intro master _ _ _; simp
  | cons b bs ih =>
    intro master hnd hex han
    have hexb : masterExists master b.id category subcategory = false :=
      hex b (List.mem_cons_self b bs)
    have hanb : analysesNonempty b.id = true := han b (List.mem_cons_self b bs)
    have hcreate : create_master_recipe master b.id category subcategory
        (analysesNonempty b.id) (callResults b.id) =
        master ++ [{ prompt_block_id := b.id, category := category,
                     subcategory := subcategory,
                     content := (shortRerun (callResults b.id)).2 }] := by
      unfold create_master_recipe
      rw [hexb, hanb]
      simp
    rw [List.foldl_cons, hcreate]
    have hndb : b.id ∉ bs.map PromptBlock.id := (List.nodup_cons.mp hnd).1
    have hnd2 : (bs.map PromptBlock.id).Nodup := (List.nodup_cons.mp hnd).2
    have hex2 : ∀ b2 ∈ bs, masterExists
        (master ++ [{ prompt_block_id := b.id, category := category,
                      subcategory := subcategory,
                      content := (shortRerun (callResults b.id)).2 }])
        b2.id category subcategory = false := by
      intro b2 hb2
      have hid : b.id ≠ b2.id := by
        intro heq
        exact hndb (heq ▸ List.mem_map_of_mem PromptBlock.id hb2)
      have hex2b : masterExists master b2.id category subcategory = false :=
        hex b2 (List.mem_cons_of_mem b hb2)
      unfold masterExists at hex2b ⊢
      rw [List.any_append, hex2b]
      simp [hid]
    have han2 : ∀ b2 ∈ bs, analysesNonempty b2.id = true :=
      fun b2 hb2 => han b2 (List.mem_cons_of_mem b hb2)
    rw [ih _ hnd2 hex2 han2]
    simp [List.append_assoc]

/-- C5: the completion check polls the analyzed-count at most
`max_wait_time / check_interval = 10` times, sleeping `check_interval`
seconds between polls for at most `max_wait_time = 20` seconds in total;
if no poll reaches `total_expected` the function returns with the
master-recipe collection untouched; if some in-budget poll reaches it, one
`create_master_recipe` call runs per active block — inserting exactly one
new recipe per block when none of the keys exists yet and each block has
analyses. -/
theorem c5_poll_bound_and_generation (master : List MasterDoc) (poll : Nat → Nat)
    (totalExpected : Nat) (activeBlocks : List PromptBlock)
    (category subcategory : String) (analysesNonempty : String → Bool)
    (callResults : String → Nat → GenResult) :
    (check_and_generate_master_recipes master poll totalExpected activeBlocks
        category subcategory analysesNonempty callResults).2.1 ≤
      max_wait_time / check_interval ∧
    check_interval *
      (check_and_generate_master_recipes master poll totalExpected activeBlocks
        category subcategory analysesNonempty callResults).2.2 ≤ max_wait_time ∧
    ((∀ j, poll j < totalExpected) →
      (check_and_generate_master_recipes master poll totalExpected activeBlocks
        category subcategory analysesNonempty callResults).1 = master) ∧
    ((∃ j, j ≤ max_wait_time / check_interval - 1 ∧ totalExpected ≤ poll j) →
      (activeBlocks.map PromptBlock.id).Nodup →
      (∀ b ∈ activeBlocks, masterExists master b.id category subcategory = false) →
      (∀ b ∈ activeBlocks, analysesNonempty b.id = true) →
      (check_and_generate_master_recipes master poll totalExpected activeBlocks
        category subcategory analysesNonempty callResults).1 =
        master ++ activeBlocks.map (fun b =>
          { prompt_block_id := b.id, category := category, subcategory := subcategory,
            content := (shortRerun (callResults b.id)).2 })) := by
  have hbounds := pollLoopAux_bounds poll totalExpected
      (max_wait_time / check_interval - 1) 0
  refine ⟨?_, ?_, ?_, ?_⟩
  · unfold check_and_generate_master_recipes
    by_cases h : (pollLoopAux poll totalExpected
        (max_wait_time / check_interval - 1) 0).1 < totalExpected <;>
      simp only [h, if_true, if_false] <;>
      exact le_trans hbounds.1 (by norm_num [max_wait_time, check_interval])
  · unfold check_and_generate_master_recipes
    by_cases h : (pollLoopAux poll totalExpected
        (max_wait_time / check_interval - 1) 0).1 < totalExpected <;>
      simp only [h, if_true, if_false] <;>
      · have := hbounds.2
        norm_num [max_wait_time, check_interval] at this ⊢
        omega
  · intro hto
    unfold check_and_generate_master_recipes
    have hlast := pollLoopAux_timeout poll totalExpected hto
        (max_wait_time / check_interval - 1) 0
    have hlt : (pollLoopAux poll totalExpected
        (max_wait_time / check_interval - 1) 0).1 < totalExpected := by
      rw [hlast]; exact hto _
    simp [hlt]
  · rintro ⟨j, hj, hpj⟩ hnd hex han
    unfold check_and_generate_master_recipes
    have hge : totalExpected ≤ (pollLoopAux poll totalExpected
        (max_wait_time / check_interval - 1) 0).1 :=
      pollLoopAux_reach poll totalExpected (max_wait_time / check_interval - 1) 0 j
        (Nat.zero_le j) (by omega) hpj
    have hlt : ¬ (pollLoopAux poll totalExpected
        (max_wait_time / check_interval - 1) 0).1 < totalExpected := by omega
    simp only [hlt, if_false]
    exact foldCreate_fresh category subcategory analysesNonempty callResults
      activeBlocks master hnd hex han

/-- Witness for C5 at concrete inputs: one expected product already
analyzed at the first poll and one fresh active block — the checker
generates exactly that block's master recipe. -/
theorem c5_poll_bound_and_generation_witness :
    (check_and_generate_master_recipes [] (fun _ => 1) 1
        [{ id := "blk-1", blockTitle := "Block One" }] "Home" "Kitchen"
        (fun _ => true) (fun _ _ => GenResult.failure "down")).1 =
      [] ++ [{ id := "blk-1", blockTitle := "Block One" : PromptBlock }].map (fun b =>
        { prompt_block_id := b.id, category := "Home", subcategory := "Kitchen",
          content := (shortRerun ((fun _ _ => GenResult.failure "down") b.id)).2 }) :=
  (c5_poll_bound_and_generation [] (fun _ => 1) 1
      [{ id := "blk-1", blockTitle := "Block One" }] "Home" "Kitchen"
      (fun _ => true) (fun _ _ => GenResult.failure "down")).2.2.2
    ⟨0, by decide, by decide⟩ (by decide) (by decide) (by decide)

/-! ## C9 -/

/-- C9 counterexample: with no pre-existing recipe and one analysis row,
a generation call that FAILS still results in a MasterRecipe document
being inserted — the `if result.get("success")` test only guards the
re-run, not the insert — so the state after the failure is the presence,
not the absence, of a MasterRecipe with the failure payload as content. -/
theorem c9_failed_generation_counterexample :
    create_master_recipe [] "blk-1" "Home" "Kitchen" true
        (fun _ => GenResult.failure "Gemini call failed") =
      [{ prompt_block_id := "blk-1", category := "Home", subcategory := "Kitchen",
         content := GenResult.failure "Gemini call failed" }] ∧
    masterCount
      (create_master_recipe [] "blk-1" "Home" "Kitchen" true
        (fun _ => GenResult.failure "Gemini call failed"))
      "blk-1" "Home" "Kitchen" ≠ 0 := by
  refine ⟨by decide, by decide⟩

/-- C9 (amended): after a failed master-recipe generation call the code
still inserts a MasterRecipe document embedding the final (failure) result
as its `content`; no document is created only when a recipe for the triple
already exists or when the triple has no analyses. -/
theorem c9_failed_generation_amended (master : List MasterDoc)
    (blockId category subcategory : String) (callResults : Nat → GenResult)
    (hex : masterExists master blockId category subcategory = false) :
    create_master_recipe master blockId category subcategory true callResults =
      master ++ [{ prompt_block_id := blockId, category := category,
                   subcategory := subcategory,
                   content := (shortRerun callResults).2 }] ∧
    create_master_recipe master blockId category subcategory false callResults =
      master ∧
    (∀ (m2 : List MasterDoc) (an : Bool),
      masterExists m2 blockId category subcategory = true →
      create_master_recipe m2 blockId category subcategory an callResults = m2) := by
  refine ⟨?_, ?_, ?_⟩
  · unfold create_master_recipe
    rw [hex]
    simp
  · unfold create_master_recipe
    rw [hex]
    simp
  · intro m2 an hm2
    unfold create_master_recipe
    rw [hm2]
    simp

/-- Witness for C9 at concrete inputs: an empty collection and a failing
generation call — the failure dict is inserted as a recipe. -/
theorem c9_failed_generation_amended_witness :
    create_master_recipe [] "blk-2" "Home" "Kitchen" true
        (fun _ => GenResult.failure "quota exceeded") =
      [] ++ [{ prompt_block_id := "blk-2", category := "Home", subcategory := "Kitchen",
               content := (shortRerun (fun _ => GenResult.failure "quota exceeded")).2 }] :=
  (c9_failed_generation_amended [] "blk-2" "Home" "Kitchen"
      (fun _ => GenResult.failure "quota exceeded") (by decide)).1

/-! ## C1 -/

/-- `masterCount` distributes over append. -/
theorem masterCount_append (m1 m2 : List MasterDoc) (blockId category subcategory : String) :
    masterCount (m1 ++ m2) blockId category subcategory =
      masterCount m1 blockId category subcategory +
        masterCount m2 blockId category subcategory := by
  unfold masterCount
  rw [List.filter_append, List.length_append]

/-- A failed existence check means zero stored documents for the triple. -/
theorem masterExists_false_count (m : List MasterDoc) (blockId category subcategory : String)
    (h : masterExists m blockId category subcategory = false) :
    masterCount m blockId category subcategory = 0 := by
  unfold masterExists at h
  unfold masterCount
  rw [List.length_eq_zero]
  apply List.filter_eq_nil_iff.mpr
  intro d hd
  exact List.any_eq_false.mp h d hd

/-- One atomic `create_master_recipe` preserves the at-most-one invariant
for every recipe key. -/
theorem create_preserves_atMostOne (m : List MasterDoc)
    (blockId category subcategory : String) (analysesNonempty : Bool)
    (callResults : Nat → GenResult) (b c s : String)
    (h : masterCount m b c s ≤ 1) :
    masterCount (create_master_recipe m blockId category subcategory
      analysesNonempty callResults) b c s ≤ 1 := by
  unfold create_master_recipe
  by_cases hex : masterExists m blockId category subcategory = true
  · simp [hex, h]
  · have hexf : masterExists m blockId category subcategory = false := by
      revert hex; cases masterExists m blockId category subcategory <;> simp
    rw [hexf]
    cases analysesNonempty
    · simpa using h
    · simp only [Bool.not_true, Bool.false_eq_true, if_false]
      rw [masterCount_append]
      by_cases hkey : ((blockId == b) && (category == c) && (subcategory == s)) = true
      · have hparts := (Bool.and_eq_true _ _).mp hkey
        have hb : blockId = b := eq_of_beq ((Bool.and_eq_true _ _).mp hparts.1).1
        have hc : category = c := eq_of_beq ((Bool.and_eq_true _ _).mp hparts.1).2
        have hs2 : subcategory = s := eq_of_beq hparts.2
        have h0 : masterCount m b c s = 0 := by
          rw [← hb, ← hc, ← hs2]
          exact masterExists_false_count m blockId category subcategory hexf
        rw [h0]
        have hone : masterCount
            [{ prompt_block_id := blockId, category := category,
               subcategory := subcategory,
               content := (shortRerun callResults).2 }] b c s ≤ 1 := by
          unfold masterCount
          exact le_trans (List.length_filter_le _ _) (by simp)
        simpa using hone
      · have hkeyf : ((blockId == b) && (category == c) && (subcategory == s)) = false := by
          revert hkey
          cases ((blockId == b) && (category == c) && (subcategory == s)) <;> simp
        have h0 : masterCount
            [{ prompt_block_id := blockId, category := category,
               subcategory := subcategory,
               content := (shortRerun callResults).2 }] b c s = 0 := by
          unfold masterCount
          simp [List.filter, hkeyf]
        rw [h0]
        simpa using h

/-- Running one trigger thread's two steps back-to-back is exactly one
atomic `create_master_recipe`. -/
theorem triggerTwoSteps (master : List MasterDoc) (t : TriggerThread)
    (h : t.pc = TriggerPc.notStarted) :
    triggerStep (triggerStep master t).1 (triggerStep master t).2 =
      (create_master_recipe master t.blockId t.category t.subcategory
        t.analysesNonempty t.callResults,
       { t with pc := TriggerPc.finished }) := by
  obtain ⟨lockName, blockId, category, subcategory, analysesNonempty, callResults, pc⟩ := t
  dsimp at h
  subst h
  simp only [triggerStep]
  unfold create_master_recipe
  cases hE : masterExists master blockId category subcategory <;>
    cases hN : analysesNonempty <;> simp [hE, hN]

/-- A serialized run with thread 0 first is atomic creation twice. -/
theorem runTriggers_seq_ff (master : List MasterDoc) (t0 t1 : TriggerThread)
    (h0 : t0.pc = TriggerPc.notStarted) (h1 : t1.pc = TriggerPc.notStarted) :
    (runTriggers [false, false, true, true] master t0 t1).1 =
      create_master_recipe
        (create_master_recipe master t0.blockId t0.category t0.subcategory
          t0.analysesNonempty t0.callResults)
        t1.blockId t1.category t1.subcategory t1.analysesNonempty t1.callResults := by
  have h2 := triggerTwoSteps master t0 h0
  have h2a := congrArg Prod.fst h2
  dsimp only at h2a
  simp only [runTriggers]
  rw [h2a]
  have h3 := triggerTwoSteps
    (create_master_recipe master t0.blockId t0.category t0.subcategory
      t0.analysesNonempty t0.callResults) t1 h1
  have h3a := congrArg Prod.fst h3
  dsimp only at h3a
  rw [h3a]

/-- A serialized run with thread 1 first is atomic creation twice. -/
theorem runTriggers_seq_tt (master : List MasterDoc) (t0 t1 : TriggerThread)
    (h0 : t0.pc = TriggerPc.notStarted) (h1 : t1.pc = TriggerPc.notStarted) :
    (runTriggers [true, true, false, false] master t0 t1).1 =
      create_master_recipe
        (create_master_recipe master t1.blockId t1.category t1.subcategory
          t1.analysesNonempty t1.callResults)
        t0.blockId t0.category t0.subcategory t0.analysesNonempty t0.callResults := by
  have h2 := triggerTwoSteps master t1 h1
  have h2a := congrArg Prod.fst h2
  dsimp only at h2a
  simp only [runTriggers]
  rw [h2a]
  have h3 := triggerTwoSteps
    (create_master_recipe master t1.blockId t1.category t1.subcategory
      t1.analysesNonempty t1.callResults) t0 h0
  have h3a := congrArg Prod.fst h3
  dsimp only at h3a
  rw [h3a]

/-- The completion trigger fired from the executor path
(`queue_product_for_analysis`), holding `analysis.category_locks[key]`,
with one analysis row present for block "blk-1" of "Home>Kitchen". -/
def execTrigger : TriggerThread :=
  { lockName := "analysis.category_locks", blockId := "blk-1",
    category := "Home", subcategory := "Kitchen", analysesNonempty := true,
    callResults := fun _ => GenResult.failure "short", pc := TriggerPc.notStarted }

/-- The completion trigger fired from the scheduler drain path
(`_cleanup_category_queue`), holding `scheduler.category_task_locks[key]`
— a distinct lock object — for the same recipe key. -/
def drainTrigger : TriggerThread :=
  { lockName := "scheduler.category_task_locks", blockId := "blk-1",
    category := "Home", subcategory := "Kitchen", analysesNonempty := true,
    callResults := fun _ => GenResult.failure "short", pc := TriggerPc.notStarted }

/-- C1 counterexample: two completion triggers for the SAME
(prompt_block_id, category, subcategory) key running concurrently — the
executor-path trigger and the scheduler drain-path trigger hold two
distinct lock objects, so the interleaving is admissible — both pass the
existence check before either inserts, and TWO MasterRecipe documents end
up stored for the triple, violating the at-most-one invariant. -/
theorem c1_master_recipe_race_counterexample :
    execTrigger.lockName ≠ drainTrigger.lockName ∧
    admissibleSchedule execTrigger drainTrigger [false, true, false, true] ∧
    masterCount (runTriggers [false, true, false, true] [] execTrigger drainTrigger).1
      "blk-1" "Home" "Kitchen" = 2 ∧
    ¬ masterCount (runTriggers [false, true, false, true] [] execTrigger drainTrigger).1
      "blk-1" "Home" "Kitchen" ≤ 1 := by
  have hcount : masterCount
      (runTriggers [false, true, false, true] [] execTrigger drainTrigger).1
      "blk-1" "Home" "Kitchen" = 2 := by rfl
  refine ⟨by decide, ?_, hcount, by omega⟩
  intro hlock
  exact absurd hlock (by decide)

/-- C1 (amended): the existence check does make `create_master_recipe`
idempotent for SERIALIZED completion triggers: when two triggers run one
after the other (as they do when both hold the same per-category lock), at
most one MasterRecipe per (prompt_block_id, category, subcategory) triple
remains; the invariant fails only for concurrent triggers interleaving
between the check and the insert, which the two distinct lock maps of the
executor path and the scheduler drain path permit. -/
theorem c1_master_recipe_serialized_amended (sched : List Bool)
    (hs : sched ∈ serializedSchedules) (master : List MasterDoc)
    (t0 t1 : TriggerThread) (h0 : t0.pc = TriggerPc.notStarted)
    (h1 : t1.pc = TriggerPc.notStarted) (b c s : String)
    (h : masterCount master b c s ≤ 1) :
    masterCount (runTriggers sched master t0 t1).1 b c s ≤ 1 := by
  simp only [serializedSchedules, List.mem_cons, List.mem_singleton,
    List.not_mem_nil, or_false] at hs
  rcases hs with hs | hs
  · subst hs
    rw [runTriggers_seq_ff master t0 t1 h0 h1]
    exact create_preserves_atMostOne _ _ _ _ _ _ b c s
      (create_preserves_atMostOne _ _ _ _ _ _ b c s h)
  · subst hs
    rw [runTriggers_seq_tt master t0 t1 h0 h1]
    exact create_preserves_atMostOne _ _ _ _ _ _ b c s
      (create_preserves_atMostOne _ _ _ _ _ _ b c s h)

/-- Witness for C1 (amended) at concrete inputs: the serialized schedule
of the two triggers of the counterexample leaves exactly one recipe. -/
theorem c1_master_recipe_serialized_amended_witness :
    masterCount
      (runTriggers [false, false, true, true] [] execTrigger drainTrigger).1
      "blk-1" "Home" "Kitchen" ≤ 1 :=
  c1_master_recipe_serialized_amended [false, false, true, true]
    (by simp [serializedSchedules]) [] execTrigger drainTrigger rfl rfl
    "blk-1" "Home" "Kitchen" (by decide)

/-! ## C8 -/

/-- C8: the category key is NOT computed by the same function everywhere.
The scheduler's tracking/cleanup and the analysis executor read the
dict-shaped hierarchy (`main_category` / `sub_categories[-1]`) and agree
wherever the scheduler derives a key; but the competitor-analysis path
indexes the hierarchy positionally (`[0]` / `[1]`) as a flat list, and
there is NO hierarchy value on which it and the scheduler both derive a
key: on the dict-shaped product `{main_category: "Home",
sub_categories: ["Kitchen"]}` the scheduler derives ("Home", "Kitchen")
while `run_competitor_analysis` raises `KeyError`. -/
theorem c8_category_key_divergence :
    schedulerCategoryKey (CategoryHierarchy.hdict (some "Home") ["Kitchen"]) =
      KeyResult.ok "Home" "Kitchen" ∧
    analysisCategoryKey (CategoryHierarchy.hdict (some "Home") ["Kitchen"]) =
      KeyResult.ok "Home" "Kitchen" ∧
    competitorCategoryKey (CategoryHierarchy.hdict (some "Home") ["Kitchen"]) =
      KeyResult.raised ∧
    (∀ (h : CategoryHierarchy) (m s : String),
      schedulerCategoryKey h = KeyResult.ok m s →
      analysisCategoryKey h = KeyResult.ok m s) ∧
    (∀ (h : CategoryHierarchy) (m s m2 s2 : String),
      ¬ (schedulerCategoryKey h = KeyResult.ok m s ∧
         competitorCategoryKey h = KeyResult.ok m2 s2)) := by
  refine ⟨by decide, by decide, by decide, ?_, ?_⟩
  · intro h m s hkey
    cases h with
    | hlist items => cases hkey
    | hdict main subs =>
      cases main with
      | none =>
        exfalso
        revert hkey
        simp [schedulerCategoryKey]
      | some km =>
        cases subs with
        | nil =>
          exfalso
          revert hkey
          simp [schedulerCategoryKey]
        | cons a as =>
          simp only [schedulerCategoryKey, List.isEmpty_cons, Bool.false_eq_true,
            if_false] at hkey
          cases hlast : (a :: as).getLast? with
          | none =>
            exact absurd (List.getLast?_eq_none_iff.mp hlast) (List.cons_ne_nil a as)
          | some ls =>
            rw [hlast] at hkey
            dsimp only at hkey
            by_cases hz : km = "" ∨ ls = ""
            · rw [if_pos hz] at hkey
              cases hkey
            · rw [if_neg hz] at hkey
              cases hkey
              simp only [analysisCategoryKey]
              have hkm : ¬ (m = "" ∨ (a :: as).isEmpty = true) := by
                rintro (hc | hc)
                · exact hz (Or.inl hc)
                · simp at hc
              rw [if_neg hkm, hlast]
  · intro h m s m2 s2 hpair
    obtain ⟨hsch, hcomp⟩ := hpair
    cases h with
    | hlist items =>
      cases hsch
    | hdict main subs =>
      cases main with
      | none =>
        cases subs with
        | nil => cases hcomp
        | cons a as =>
          simp only [competitorCategoryKey] at hcomp
          cases hcomp
      | some km =>
        cases subs with
        | nil =>
          simp only [competitorCategoryKey] at hcomp
          cases hcomp
        | cons a as =>
          simp only [competitorCategoryKey] at hcomp
          cases hcomp

/-- Witness for C8 at concrete inputs: on a dict-shaped hierarchy where
the scheduler derives a key, the executor derives the same key. -/
theorem c8_category_key_divergence_witness :
    analysisCategoryKey (CategoryHierarchy.hdict (some "Electronics") ["Phones"]) =
      KeyResult.ok "Electronics" "Phones" :=
  c8_category_key_divergence.2.2.2.1
    (CategoryHierarchy.hdict (some "Electronics") ["Phones"])
    "Electronics" "Phones" (by decide)

end ProductLaunch
